import Mathlib

/-!
A shallow embedding of the tenant-safe configuration mutation engine of the
prometheus-configmanager repository, together with proofs about its
receiver/routes manager (alertmanager/client/client.go and
alertmanager/config/config.go), its rule-file manager
(prometheus/alert/alert_client.go) and its template manager
(alertmanager/client/template_client.go).

Conventions of the embedding:
* Go strings are Lean `String`s; byte indexing is modelled as character
  indexing over `String.data`.
* Go maps are association lists whose assignment replaces the value of an
  existing key in place and otherwise appends the new pair.
* The injected filesystem capability (fsclient.FSClient) is modelled by a
  state record holding the parsed content of the single managed file plus
  two failure flags for read and write errors.
* `Config.Validate` round-trips the document through the alertmanager
  schema parser, an external library; it is abstracted as a `Config → Bool`
  parameter of the client, so theorems hold for every validator.
* A Go runtime panic is modelled as the `.error` branch of an `Except`.
-/

/-! ## Go string primitives -/

/-- Go strings.HasPrefix, on the character list of the string. -/
def goHasPrefix (s pre : String) : Bool := pre.data.isPrefixOf s.data

/-- Go strings.TrimPrefix: remove `pre` from the front of `s` when present,
otherwise return `s` unchanged. -/
def goTrimPrefix (s pre : String) : String :=
  if goHasPrefix s pre then ⟨s.data.drop pre.data.length⟩ else s

/-- First index at which `sub` occurs in the list, if any. -/
def idxOfSub (sub : List Char) : List Char → Option Nat
  | [] => if sub.isEmpty then some 0 else none
  | c :: tl => if sub.isPrefixOf (c :: tl) then some 0 else (idxOfSub sub tl).map (· + 1)

/-- Go strings.Index, returning `none` where Go returns -1. -/
def goIndex (s sub : String) : Option Nat := idxOfSub sub.data s.data

/-- Go strings.Contains. -/
def goContains (s sub : String) : Bool := (goIndex s sub).isSome

/-- Character-wise (byte-wise in Go) less-or-equal on strings, the order used
by Go sort.Strings. -/
def charListLe : List Char → List Char → Bool
  | [], _ => true
  | _ :: _, [] => false
  | a :: as, b :: bs =>
    if a.toNat < b.toNat then true
    else if b.toNat < a.toNat then false
    else charListLe as bs

/-- String comparison used by the sorting in the managers. -/
def strle (a b : String) : Bool := charListLe a.data b.data

/-- Go sort.Strings. -/
def sortStrings (l : List String) : List String := l.mergeSort strle

/-- Concatenation of a list of strings. -/
def concatStrings (l : List String) : String := l.foldr (· ++ ·) ""

/-- Go map assignment m[k] = v over an association list: replace the value at
an existing key, else append the pair. -/
def insertKV (m : List (String × String)) (k v : String) : List (String × String) :=
  if m.any (fun p => p.1 == k) then
    m.map (fun p => if p.1 == k then (k, v) else p)
  else m ++ [(k, v)]

/-- Go map read m[k] over an association list. -/
def lookupKV (m : List (String × String)) (k : String) : Option String :=
  (m.find? (fun p => p.1 == k)).map (·.2)

/-! ## The receiver/route model: package alertmanager/config -/

namespace config

/-- The per-tenant base-route sentinel name suffix (config.go). -/
def TenantBaseRoutePostfix : String := "tenant_base_route"

/-- config.MakeBaseRouteName. -/
def MakeBaseRouteName (tenantID : String) : String :=
  tenantID ++ "_" ++ TenantBaseRoutePostfix

/-- Modelled from the spec: the source file defining the receiver record and
its name securing (receivers.go) is not under src/. Per the spec a receiver is
"a named record carrying zero or more typed notification channels"; the name
is the join key between the receivers list and route nodes, and it alone
participates in tenant name-spacing of names, so the channel payload is
elided here. -/
structure Receiver where
  name : String
deriving DecidableEq, Repr

/-- Modelled from the spec: "Every receiver used by a tenant is stored under
the name `tenant_id`_`original`"; the tenant prefix of receiver names. -/
def ReceiverTenantPrefix (tenantID : String) : String := tenantID ++ "_"

/-- Modelled from the spec: securing a receiver name applies the tenant
prefix. -/
def SecureReceiverName (name tenantID : String) : String :=
  ReceiverTenantPrefix tenantID ++ name

/-- Modelled from the spec: un-securing strips the tenant prefix
("all `tenant_id`_ prefixes are stripped on the way out"). -/
def UnsecureReceiverName (name tenantID : String) : String :=
  goTrimPrefix name (ReceiverTenantPrefix tenantID)

/-- Modelled from the spec: Receiver.Secure prefixes the receiver name with
the tenant id (channel-URL securing operates on the elided payload). -/
def Receiver.Secure (tenantID : String) (r : Receiver) : Receiver :=
  ⟨SecureReceiverName r.name tenantID⟩

/-- Modelled from the spec: Receiver.Unsecure strips the tenant prefix from
the receiver name. -/
def Receiver.Unsecure (tenantID : String) (r : Receiver) : Receiver :=
  ⟨UnsecureReceiverName r.name tenantID⟩

/-- A node in the routing tree (config.Route): a receiver reference, an
optional label-match map, and child routes. The nil pointer of the Go
representation is dropped: the managers never store nil children. -/
inductive Route where
  | mk (receiver : String) (matchers : List (String × String)) (routes : List Route)
deriving Repr

def Route.receiver : Route → String
  | .mk r _ _ => r

def Route.matchers : Route → List (String × String)
  | .mk _ m _ => m

def Route.routes : Route → List Route
  | .mk _ _ rs => rs

/-- The SMTP/OAuth/webhook globals (config.GlobalConfig): strings rather than
redacted secret types. The http_config sub-record (an external common type
never inspected by the managers) is elided. -/
structure GlobalConfig where
  resolveTimeout : String
  smtpFrom : String
  smtpHello : String
  smtpSmarthost : String
  smtpAuthUsername : String
  smtpAuthPassword : String
  smtpAuthSecret : String
  smtpAuthIdentity : String
  smtpRequireTLS : Bool
  slackAPIURL : Option String
  pagerdutyURL : Option String
  hipchatAPIURL : Option String
  hipchatAuthToken : String
  opsGenieAPIURL : Option String
  opsGenieAPIKey : String
  weChatAPIURL : Option String
  weChatAPISecret : String
  weChatAPICorpID : String
  victorOpsAPIURL : Option String
  victorOpsAPIKey : String
deriving DecidableEq, Repr

/-- An all-empty globals record, used for concrete instantiations. -/
def emptyGlobalConfig : GlobalConfig :=
  ⟨"", "", "", "", "", "", "", "", false, none, none, none, "", none, "", none, "", "", none, ""⟩

/-- The configuration document (config.Config). inhibit_rules (a list of an
external alertmanager type that no manager operation reads or writes) is
elided. The route tree pointer is modelled as a plain `Route`: every manager
operation dereferences it unconditionally, so a document without a route tree
would crash the original program and carries no claim. -/
structure Config where
  global : Option GlobalConfig
  route : Route
  receivers : List Receiver
  templates : List String

/-- config.Config.GetReceiver: first receiver with the given name. -/
def Config.GetReceiver (c : Config) (name : String) : Option Receiver :=
  c.receivers.find? (fun rec => rec.name == name)

/-- config.Config.GetRouteIdx: index of the first top-level route whose
receiver is `name`; `none` where Go returns -1. -/
def Config.GetRouteIdx (c : Config) (name : String) : Option Nat :=
  c.route.routes.findIdx? (fun r => r.receiver == name)

/-- config.Config.SearchRoutesForReceiver helper: DFS of one subtree. -/
def searchRoutesForReceiverImpl (receiver : String) : Route → Bool
  | .mk r _ rs =>
    r == receiver || rs.attach.any (fun c => searchRoutesForReceiverImpl receiver c.1)
decreasing_by
  simp_wf
  have := List.sizeOf_lt_of_mem c.2
  simp only [Route.mk.sizeOf_spec] at *
  omega

/-- config.Config.SearchRoutesForReceiver: the root route counts, then every
top-level subtree is searched. -/
def Config.SearchRoutesForReceiver (c : Config) (receiver : String) : Bool :=
  c.route.receiver == receiver || c.route.routes.any (searchRoutesForReceiverImpl receiver)

/-- config.removeReceiverFromRouteImpl: a node whose receiver matches is
dropped (nil in Go); otherwise its children are pruned recursively and the
nils filtered out. -/
def removeReceiverFromRouteImpl (receiver : String) : Route → Option Route
  | .mk r m rs =>
    if r == receiver then none
    else some (.mk r m (rs.attach.filterMap (fun c => removeReceiverFromRouteImpl receiver c.1)))
decreasing_by
  simp_wf
  have := List.sizeOf_lt_of_mem c.2
  simp only [Route.mk.sizeOf_spec] at *
  omega

/-- config.Config.RemoveReceiverFromRoute: prune every top-level subtree; the
root node itself is left untouched. -/
def Config.RemoveReceiverFromRoute (c : Config) (receiver : String) : Config :=
  { c with route := (Route.mk c.route.receiver c.route.matchers
      (c.route.routes.filterMap (removeReceiverFromRouteImpl receiver))) }

/-- config.Config.InitializeNetworkBaseRoute, with the schema validator
abstracted as `validate`: append the sentinel receiver, point the supplied
route at it, force the matcher when the label is non-empty, append to the
root children, and re-validate. -/
def Config.InitializeNetworkBaseRoute (validate : Config → Bool) (c : Config)
    (route : Route) (matcherLabel tenantID : String) : Except String Config :=
  let baseRouteName := MakeBaseRouteName tenantID
  if (c.GetReceiver baseRouteName).isSome then
    .error ("Base route for tenant " ++ tenantID ++ " already exists")
  else
    let c1 := { c with receivers := c.receivers ++ [Receiver.mk baseRouteName] }
    let route1 := Route.mk baseRouteName
      (if matcherLabel ≠ "" then [(matcherLabel, tenantID)] else route.matchers)
      route.routes
    let c2 := { c1 with route := (Route.mk c1.route.receiver c1.route.matchers
        (c1.route.routes ++ [route1])) }
    if validate c2 then .ok c2 else .error "invalid config"

end config

/-! ## The receiver/routes manager: package alertmanager/client (client.go) -/

namespace amclient

open config

/-- The tenancy configuration (alert.TenancyConfig). -/
structure TenancyConfig where
  restrictorLabel : String
  restrictQueries : Bool
deriving DecidableEq, Repr

/-- The client configuration (client.ClientConfig). The filesystem client and
paths live in the state below; `validate` abstracts Config.Validate (a
round-trip through the external alertmanager schema parser). -/
structure ClientConfig where
  validate : Config → Bool
  tenancy : TenancyConfig
  deleteRoutes : Bool

/-- The injected filesystem capability, reduced to the single managed
configuration document: its parsed content plus read/write failure flags. -/
structure AMState where
  disk : Config
  readFails : Bool
  writeFails : Bool

/-- client.readConfigFile: read and parse the document; any fsclient or YAML
failure is an error. -/
def readConfigFile (s : AMState) : Except String Config :=
  if s.readFails then .error "error reading config files" else .ok s.disk

/-- client.writeConfigFile: marshal and write the whole document. -/
def writeConfigFile (conf : Config) (s : AMState) : AMState × Option String :=
  if s.writeFails then (s, some "error writing config file")
  else ({ s with disk := conf }, none)

/-- client.CreateReceiver: read, secure the receiver name with the tenant
prefix, append, validate, write. -/
def CreateReceiver (c : ClientConfig) (tenantID : String) (rec : Receiver)
    (s : AMState) : AMState × Option String :=
  match readConfigFile s with
  | .error e => (s, some e)
  | .ok conf =>
    let rec1 := Receiver.Secure tenantID rec
    let conf1 := { conf with receivers := conf.receivers ++ [rec1] }
    if c.validate conf1 then writeConfigFile conf1 s else (s, some "validation error")

/-- client.GetReceivers: read; on a read or parse failure return an empty
list and a nil error; otherwise keep the receivers carrying the tenant
prefix, skip the base-route sentinel, and un-prefix the survivors. -/
def GetReceivers (tenantID : String) (s : AMState) : List Receiver × Option String :=
  match readConfigFile s with
  | .error _ => ([], none)
  | .ok conf =>
    ((conf.receivers.filter (fun rec =>
        goHasPrefix rec.name (ReceiverTenantPrefix tenantID) &&
        !(rec.name == ReceiverTenantPrefix tenantID ++ TenantBaseRoutePostfix))).map
      (Receiver.Unsecure tenantID), none)

/-- client.UpdateReceiver: read, secure the replacement, locate the prefixed
name, replace in place, validate, write. -/
def UpdateReceiver (c : ClientConfig) (tenantID receiverName : String)
    (newRec : Receiver) (s : AMState) : AMState × Option String :=
  match readConfigFile s with
  | .error e => (s, some e)
  | .ok conf =>
    let newRec1 := Receiver.Secure tenantID newRec
    let receiverToUpdate := SecureReceiverName receiverName tenantID
    match conf.receivers.findIdx? (fun rec => rec.name == receiverToUpdate) with
    | none => (s, some ("Receiver " ++ newRec.name ++ " not found"))
    | some idx =>
      let conf1 := { conf with receivers := conf.receivers.set idx newRec1 }
      if c.validate conf1 then writeConfigFile conf1 s
      else (s, some "Error updating receiver")

/-- The receiver-deletion loop of client.DeleteReceiver: drop the first
receiver with the given name, `none` when absent. -/
def removeFirstReceiver (target : String) : List Receiver → Option (List Receiver)
  | [] => none
  | r :: rs =>
    if r.name == target then some rs
    else (removeFirstReceiver target rs).map (r :: ·)

/-- client.DeleteReceiver: read, drop the prefixed receiver (error when
absent); with the delete-routes flag prune the route tree, otherwise refuse
when the route tree still references the receiver; finally write. -/
def DeleteReceiver (c : ClientConfig) (tenantID receiverName : String)
    (s : AMState) : AMState × Option String :=
  match readConfigFile s with
  | .error e => (s, some e)
  | .ok conf =>
    let receiverToDelete := SecureReceiverName receiverName tenantID
    match removeFirstReceiver receiverToDelete conf.receivers with
    | none => (s, some ("receiver " ++ receiverName ++ " does not exist"))
    | some recs =>
      let conf1 := { conf with receivers := recs }
      if c.deleteRoutes then
        writeConfigFile (conf1.RemoveReceiverFromRoute receiverToDelete) s
      else
        if conf1.SearchRoutesForReceiver receiverToDelete then
          (s, some ("reciever " ++ receiverName ++ " referenced in route. Update routing tree and remove references before deleting this receiver"))
        else writeConfigFile conf1 s

/-- client.secureRoute: recursively prefix every receiver reference of a
routing subtree with the tenant id. -/
def secureRoute (tenantID : String) : Route → Route
  | .mk r m rs =>
    .mk (SecureReceiverName r tenantID) m (rs.attach.map (fun c => secureRoute tenantID c.1))
decreasing_by
  simp_wf
  have := List.sizeOf_lt_of_mem c.2
  simp only [Route.mk.sizeOf_spec] at *
  omega

/-- client.getBaseRouteForTenant: the first top-level route named after the
tenant base route, or a fresh one carrying that name. -/
def getBaseRouteForTenant (tenantID : String) (conf : Config) : Route :=
  match conf.route.routes.find? (fun r => r.receiver == MakeBaseRouteName tenantID) with
  | some r => r
  | none => Route.mk (MakeBaseRouteName tenantID) [] []

/-- The in-memory route preparation of client.ModifyTenantRoute: force the
restrictor matcher into the match map when the label is non-empty, then
recursively secure every child subtree. -/
def modifyRouteSecured (c : ClientConfig) (tenantID : String) (route : Route) : Route :=
  let route1 :=
    if c.tenancy.restrictorLabel ≠ "" then
      Route.mk route.receiver (insertKV route.matchers c.tenancy.restrictorLabel tenantID) route.routes
    else route
  Route.mk route1.receiver route1.matchers (route1.routes.map (secureRoute tenantID))

/-- Overwriting the existing tenant slot in root.routes
(conf.Route.Routes[tenantRouteIdx] = route). -/
def overwriteTenantRoute (conf : Config) (idx : Nat) (r : Route) : Config :=
  { conf with route := (Route.mk conf.route.receiver conf.route.matchers
      (conf.route.routes.set idx r)) }

/-- client.ModifyTenantRoute: read; require the supplied route to carry the
tenant base-route receiver name; force the restrictor matcher when the label
is non-empty; secure all children; then either initialise the tenant base
route or overwrite its slot; validate; write. -/
def ModifyTenantRoute (c : ClientConfig) (tenantID : String) (route : Route)
    (s : AMState) : AMState × Option String :=
  match readConfigFile s with
  | .error e => (s, some e)
  | .ok conf =>
    let baseRoute := getBaseRouteForTenant tenantID conf
    if route.receiver ≠ baseRoute.receiver then
      (s, some ("route base receiver is incorrect (should be " ++ baseRoute.receiver ++ "). The base node should match nothing, then add routes as children of the base node"))
    else
      let route2 := modifyRouteSecured c tenantID route
      match conf.GetRouteIdx (MakeBaseRouteName tenantID) with
      | none =>
        match conf.InitializeNetworkBaseRoute c.validate route2
            c.tenancy.restrictorLabel tenantID with
        | .error e => (s, some e)
        | .ok conf1 =>
          if c.validate conf1 then writeConfigFile conf1 s
          else (s, some "validation error")
      | some idx =>
        let conf1 := overwriteTenantRoute conf idx route2
        if c.validate conf1 then writeConfigFile conf1 s
        else (s, some "validation error")

/-- One iteration of the client.GetTenants loop: a receiver whose name
contains the base-route substring contributes the slice
rec.Name[0:Index-1]; the Go slice expression panics when the substring
starts at index 0, modelled as the `.error` branch. -/
def getTenantsStep (acc : List String) (rec : Receiver) : Except String (List String) :=
  if goContains rec.name TenantBaseRoutePostfix then
    match goIndex rec.name TenantBaseRoutePostfix with
    | some idx =>
      if 1 ≤ idx then .ok (acc ++ [(⟨rec.name.data.take (idx - 1)⟩ : String)])
      else .error "runtime error: slice bounds out of range"
    | none => .ok acc
  else .ok acc

/-- client.GetTenants: collect, in receivers-list order, the name fragment
before the base-route substring of every receiver containing it. -/
def GetTenants (s : AMState) : Except String (List String × Option String) :=
  match readConfigFile s with
  | .error e => .ok ([], some e)
  | .ok conf => do
    let ts ← conf.receivers.foldlM getTenantsStep []
    .ok (ts, none)

/-- The tenant id fragment a receiver contributes to GetTenants, when its
name contains the base-route substring. -/
def tenantFragment (rec : Receiver) : Option String :=
  (goIndex rec.name TenantBaseRoutePostfix).map
    (fun i => (⟨rec.name.data.take (i - 1)⟩ : String))

/-- client.SetGlobalConfig: read, replace the global section, validate,
write. -/
def SetGlobalConfig (c : ClientConfig) (globalConfig : GlobalConfig)
    (s : AMState) : AMState × Option String :=
  match readConfigFile s with
  | .error e => (s, some e)
  | .ok conf =>
    let conf1 := { conf with global := some globalConfig }
    if c.validate conf1 then writeConfigFile conf1 s
    else (s, some "validation error")

end amclient

/-! ## The rule model and rule-file manager: package prometheus/alert -/

namespace alert

/-- An alerting/recording rule (rulefmt.Rule). The "for" duration is opaque
to every claim and kept as a natural number of nanoseconds. -/
structure Rule where
  record : String
  alert : String
  expr : String
  forDur : Nat
  labels : List (String × String)
  annotations : List (String × String)
deriving DecidableEq, Repr

/-- Modelled from the spec: rules are keyed by their alert/record name
("Rules within a file have unique alert/record names ...; updates key by
that name"); exactly one of the two discriminators is non-empty in a valid
rule. -/
def Rule.name (r : Rule) : String := if r.alert ≠ "" then r.alert else r.record

/-- A rule group (rulefmt.RuleGroup): a named ordered sequence of rules. -/
structure RuleGroup where
  name : String
  rules : List Rule
deriving DecidableEq, Repr

/-- A rule file (alert.File): a list of rule groups. The file model source
(alert_rule.go) is not under src/; its operations below are modelled from
the spec. -/
structure File where
  ruleGroups : List RuleGroup
deriving DecidableEq, Repr

/-- Modelled from the spec: "A rule file is initialised as a single group
named after the tenant" (alert.NewFile). -/
def NewFile (filePrefix : String) : File := ⟨[⟨filePrefix, []⟩]⟩

/-- Modelled from the spec: "Empty name returns all rules across groups in
document order" (alert.File.Rules). -/
def File.Rules (f : File) : List Rule := (f.ruleGroups.map RuleGroup.rules).flatten

/-- Modelled from the spec: locate the first rule carrying the given
alert/record name, across groups in document order (alert.File.GetRule). -/
def File.GetRule (f : File) (rulename : String) : Option Rule :=
  f.Rules.find? (fun r => r.name == rulename)

/-- Modelled from the spec: "append to the first group" (alert.File.AddRule).
A file with no groups at all is outside the spec; the rule then starts an
unnamed group. -/
def File.AddRule (f : File) (r : Rule) : File :=
  match f.ruleGroups with
  | [] => ⟨[⟨"", [r]⟩]⟩
  | g :: gs => ⟨{ g with rules := g.rules ++ [r] } :: gs⟩

/-- Replace the first rule of the list carrying the same name, if any. -/
def replaceFirstRule (r : Rule) : List Rule → Option (List Rule)
  | [] => none
  | x :: xs =>
    if x.name == r.name then some (r :: xs)
    else (replaceFirstRule r xs).map (x :: ·)

/-- Replace the first matching rule in the first group holding one. -/
def replaceRuleInGroups (r : Rule) : List RuleGroup → Option (List RuleGroup)
  | [] => none
  | g :: gs =>
    match replaceFirstRule r g.rules with
    | some rs => some ({ g with rules := rs } :: gs)
    | none => (replaceRuleInGroups r gs).map (g :: ·)

/-- Modelled from the spec: "replace the first rule with matching
alert/record name in any group. Fail if none matches"
(alert.File.ReplaceRule). -/
def File.ReplaceRule (f : File) (r : Rule) : Except String File :=
  match replaceRuleInGroups r f.ruleGroups with
  | some gs => .ok ⟨gs⟩
  | none => .error ("rule " ++ r.name ++ " does not exist")

/-- The tenancy configuration of the rules service (alert.TenancyConfig). -/
structure TenancyConfig where
  restrictorLabel : String
  restrictQueries : Bool
deriving DecidableEq, Repr

/-- Modelled from the spec: alert.SecureRule (alert_rule.go is not under
src/). With a non-empty restrictor label the rule's label map gains
label=tenant; with restrict_queries also set, the expression is rewritten by
the query restrictor, whose PromQL parser (component C, an external package)
is abstracted as the `restrictQuery` argument; its parse failure is the
securing failure. With an empty label, securing is a no-op. -/
def SecureRule (restrictQuery : String → Except String String)
    (restrictQueries : Bool) (restrictorLabel tenantID : String)
    (r : Rule) : Except String Rule :=
  if restrictorLabel == "" then .ok r
  else
    let labeled := { r with labels := insertKV r.labels restrictorLabel tenantID }
    if restrictQueries then
      match restrictQuery r.expr with
      | .error e => .error e
      | .ok e => .ok { labeled with expr := e }
    else .ok labeled

/-- The rules client (alert.client): tenancy plus the abstracted query
restrictor. -/
structure AlertClient where
  tenancy : TenancyConfig
  restrictQuery : String → Except String String

/-- The filesystem capability for one tenant's rule file: whether Stat
succeeds, the parsed content, and read/write failure flags. -/
structure RuleState where
  fileExists : Bool
  disk : File
  readFails : Bool
  writeFails : Bool

/-- alert.client.readRuleFile. -/
def readRuleFile (s : RuleState) : Except String File :=
  if s.readFails then .error "error reading rules file" else .ok s.disk

/-- alert.client.writeRuleFile. -/
def writeRuleFile (f : File) (s : RuleState) : RuleState × Option String :=
  if s.writeFails then (s, some "error writing rules file")
  else ({ s with disk := f, fileExists := true }, none)

/-- alert.client.readOrInitializeRuleFile: read when the file exists, else
start the fresh single-group file. -/
def readOrInitializeRuleFile (filePrefix : String) (s : RuleState) : Except String File :=
  if s.fileExists then readRuleFile s else .ok (NewFile filePrefix)

/-- alert.client.ReadRules: missing file gives an empty list and no error;
an empty name gives all rules in document order; a non-empty name gives the
matching rule or an error. -/
def ReadRules (_filePrefix ruleName : String) (s : RuleState) : List Rule × Option String :=
  if !s.fileExists then ([], none)
  else
    match readRuleFile s with
    | .error e => ([], some e)
    | .ok f =>
      if ruleName == "" then (f.Rules, none)
      else
        match f.GetRule ruleName with
        | none => ([], some ("rule " ++ ruleName ++ " not found"))
        | some r => ([r], none)

/-- The per-rule result bundle of a bulk update (alert.BulkUpdateResults):
Go maps from rule name to error text and to status. -/
structure BulkUpdateResults where
  errors : List (String × String)
  statuses : List (String × String)
deriving DecidableEq, Repr

/-- alert.NewBulkUpdateResults. -/
def NewBulkUpdateResults : BulkUpdateResults := ⟨[], []⟩

/-- alert.BulkUpdateResults.String: the errors section then the statuses
section, each listing its entries sorted by rule name. -/
def BulkUpdateResults.toText (r : BulkUpdateResults) : String :=
  (if r.errors.length > 0 then
    "Errors: \n" ++ ((sortStrings (r.errors.map (·.1))).foldl
      (fun acc n => acc ++ "\t" ++ n ++ ": " ++ ((lookupKV r.errors n).getD "") ++ "\n") "")
   else "") ++
  (if r.statuses.length > 0 then
    "Statuses: \n" ++ ((sortStrings (r.statuses.map (·.1))).foldl
      (fun acc n => acc ++ "\t" ++ n ++ ": " ++ ((lookupKV r.statuses n).getD "") ++ "\n") "")
   else "")

/-- One iteration of the alert.client.BulkUpdateRules loop: secure the rule
(failure is recorded per name), then replace an existing rule of that name
("updated") or append a new one ("created"). -/
def bulkStep (c : AlertClient) (filePrefix : String)
    (acc : File × BulkUpdateResults) (newRule : Rule) : File × BulkUpdateResults :=
  let ruleName := newRule.alert
  match SecureRule c.restrictQuery c.tenancy.restrictQueries
      c.tenancy.restrictorLabel filePrefix newRule with
  | .error e => (acc.1, { acc.2 with errors := insertKV acc.2.errors ruleName e })
  | .ok secured =>
    if (acc.1.GetRule ruleName).isSome then
      match acc.1.ReplaceRule secured with
      | .error e => (acc.1, { acc.2 with errors := insertKV acc.2.errors ruleName e })
      | .ok f1 => (f1, { acc.2 with statuses := insertKV acc.2.statuses ruleName "updated" })
    else
      (acc.1.AddRule secured, { acc.2 with statuses := insertKV acc.2.statuses ruleName "created" })

/-- alert.client.BulkUpdateRules: read-or-initialise, run the loop, write
once; the bundle is returned also when the terminal write fails. -/
def BulkUpdateRules (c : AlertClient) (filePrefix : String) (rules : List Rule)
    (s : RuleState) : RuleState × BulkUpdateResults × Option String :=
  match readOrInitializeRuleFile filePrefix s with
  | .error e => (s, NewBulkUpdateResults, some e)
  | .ok f0 =>
    let res := rules.foldl (bulkStep c filePrefix) (f0, NewBulkUpdateResults)
    match writeRuleFile res.1 s with
    | (s1, some e) => (s1, res.2, some e)
    | (s1, none) => (s1, res.2, none)

end alert

/-! ## The template manager: alertmanager/client/template_client.go -/

namespace tmplclient

/-- A parsed named template as the manager sees it: the parse-name of its
tree and its body text (template.Template via getTemplatesByName). -/
structure Tmpl where
  parseName : String
  body : String
deriving DecidableEq, Repr

/-- The name-to-template Go map recovered from a parsed template file. -/
abbrev TmplMap := List (String × Tmpl)

/-- Go map read m[k]. -/
def lookupTmpl (m : TmplMap) (name : String) : Option Tmpl :=
  (m.find? (fun p => p.1 == name)).map (·.2)

/-- Go map assignment m[k] = t. -/
def insertTmpl (m : TmplMap) (k : String) (t : Tmpl) : TmplMap :=
  if m.any (fun p => p.1 == k) then
    m.map (fun p => if p.1 == k then (k, t) else p)
  else m ++ [(k, t)]

/-- Go delete(m, k). -/
def removeTmpl (m : TmplMap) (k : String) : TmplMap :=
  m.filter (fun p => !(p.1 == k))

/-- client.defineTemplate: the canonical definition block emitted for one
template. -/
def defineTemplate (tmplName tmplText : String) : String :=
  "\x7b\x7b define \"" ++ tmplName ++ "\" \x7d\x7d" ++ tmplText ++ "\x7b\x7b end \x7d\x7d"

/-- One iteration of the client.writeTmplMapText loop: skip the implicit
whole-file template (map key equal to the tree parse-name), emit every
other template as a definition block followed by a newline. -/
def writeTmplStep (m : TmplMap) (acc : String) (name : String) : String :=
  match lookupTmpl m name with
  | none => acc
  | some t =>
    if name == t.parseName then acc
    else acc ++ defineTemplate name t.body ++ "\n"

/-- client.writeTmplMapText: iterate the names in sorted order and emit the
surviving templates. -/
def writeTmplMapText (m : TmplMap) : String :=
  (sortStrings (m.map (·.1))).foldl (writeTmplStep m) ""

/-- Modelled from the Go standard library text/template: parsing body text
into a fresh unnamed template yields a template whose tree parse-name is
empty; the managers retain only the body. The source ignores the parse
error in AddTemplate and maps it to an error in EditTemplate; parsing is
total here, covering the successful runs the claim quantifies over. -/
def parseNewTemplate (tmplText : String) : Tmpl := ⟨"", tmplText⟩

/-- client.AddTemplate over the parsed file map (the file read and the lock
are abstracted away); on success, the text written back to the file is
returned. -/
def AddTemplate (m : TmplMap) (tmplName tmplText : String) : Except String String :=
  if (lookupTmpl m tmplName).isSome then
    .error ("template " ++ tmplName ++ " already exists")
  else .ok (writeTmplMapText (insertTmpl m tmplName (parseNewTemplate tmplText)))

/-- client.EditTemplate over the parsed file map. -/
def EditTemplate (m : TmplMap) (tmplName tmplText : String) : Except String String :=
  if (lookupTmpl m tmplName).isNone then
    .error ("template " ++ tmplName ++ " does not exist")
  else .ok (writeTmplMapText (insertTmpl m tmplName (parseNewTemplate tmplText)))

/-- client.DeleteTemplate over the parsed file map. -/
def DeleteTemplate (m : TmplMap) (tmplName : String) : Except String String :=
  if (lookupTmpl m tmplName).isNone then
    .error ("template " ++ tmplName ++ " does not exist")
  else .ok (writeTmplMapText (removeTmpl m tmplName))

/-- The re-serialisation described by the spec, with the claimed literal
emission format (a space between the template name and the closing quote of
the define header). -/
def specDefineTemplateClaimed (tmplName tmplText : String) : String :=
  "\x7b\x7b define \"" ++ tmplName ++ " \" \x7d\x7d" ++ tmplText ++ "\x7b\x7b end \x7d\x7d"

/-- The per-name emission described by the spec, as amended: nothing for a
missing name or for the implicit whole-file template, otherwise the
definition block followed by a newline. -/
def specTemplateLine (m : TmplMap) (n : String) : Option String :=
  match lookupTmpl m n with
  | none => none
  | some t =>
    if n == t.parseName then none
    else some (defineTemplate n t.body ++ "\n")

/-- The re-serialisation described by the spec, as amended: entries sorted
by template name, the implicit whole-file template omitted, each remaining
template emitted as its definition block followed by a newline. -/
def specSerializeTemplates (m : TmplMap) : String :=
  concatStrings ((sortStrings (m.map (·.1))).filterMap (specTemplateLine m))

end tmplclient

/-! ## Concrete fixtures for witnesses and counterexamples -/

namespace fixtures

open config amclient

/-- A validator accepting every document, for concrete runs. -/
def okValidate : Config → Bool := fun _ => true

/-- Client with the tenancy restrictor label set. -/
def amClientRestrict : ClientConfig := ⟨okValidate, ⟨"tenantID", false⟩, false⟩

/-- Client with delete-routes-with-receiver enabled. -/
def amClientDel : ClientConfig := ⟨okValidate, ⟨"", false⟩, true⟩

/-- Client with delete-routes-with-receiver disabled. -/
def amClientNoDel : ClientConfig := ⟨okValidate, ⟨"", false⟩, false⟩

/-- A document holding one prefixed receiver, one unprefixed receiver and the
tenant base-route sentinel of tenant t. -/
def confRecv : Config :=
  ⟨none, Route.mk "null_receiver" [] [], [⟨"t_x"⟩, ⟨"plain"⟩, ⟨"t_tenant_base_route"⟩], []⟩

def stRecv : AMState := ⟨confRecv, false, false⟩

/-- Two tenant sentinels in reverse-alphabetical document order. -/
def confTenantsBA : Config :=
  ⟨none, Route.mk "null_receiver" [] [], [⟨"b_tenant_base_route"⟩, ⟨"a_tenant_base_route"⟩], []⟩

def stTenantsBA : AMState := ⟨confTenantsBA, false, false⟩

/-- A receiver named exactly like the base-route substring. -/
def confPanic : Config :=
  ⟨none, Route.mk "null_receiver" [] [], [⟨"tenant_base_route"⟩], []⟩

def stPanic : AMState := ⟨confPanic, false, false⟩

/-- A document with no top-level routes and no receivers. -/
def confEmptyRoutes : Config := ⟨none, Route.mk "null_receiver" [] [], [], []⟩

def stEmptyRoutes : AMState := ⟨confEmptyRoutes, false, false⟩

/-- The root route itself references the prefixed receiver t_x. -/
def confRootRef : Config := ⟨none, Route.mk "t_x" [] [], [⟨"t_x"⟩], []⟩

def stRootRef : AMState := ⟨confRootRef, false, false⟩

/-- A top-level child route references the prefixed receiver t_x. -/
def confChildRef : Config :=
  ⟨none, Route.mk "null_receiver" [] [Route.mk "t_x" [] []], [⟨"t_x"⟩], []⟩

def stChildRef : AMState := ⟨confChildRef, false, false⟩

/-- A state whose read fails. -/
def stReadFail : AMState := ⟨confEmptyRoutes, true, false⟩

/-- The base route submitted for tenant t1. -/
def routeBaseT1 : Route := Route.mk "t1_tenant_base_route" [] []

open alert

/-- A rules client with no tenancy restriction and an identity restrictor. -/
def alClient : AlertClient := ⟨⟨"", false⟩, fun e => .ok e⟩

def ruleA : Rule := ⟨"", "A", "up", 0, [], []⟩

def ruleA2 : Rule := ⟨"", "A", "up2", 0, [], []⟩

def ruleB : Rule := ⟨"", "B", "up2", 0, [], []⟩

/-- A missing rule file. -/
def rfMissing : RuleState := ⟨false, ⟨[]⟩, false, false⟩

/-- An existing rule file with one rule per group across two groups. -/
def rfTwoGroups : RuleState := ⟨true, ⟨[⟨"g1", [ruleA]⟩, ⟨"g2", [ruleB]⟩]⟩, false, false⟩

/-- A parsed template file holding one explicit template x. -/
def tmplMapX : tmplclient.TmplMap := [("x", ⟨"", "old"⟩)]

end fixtures

/-! ## Helper lemmas -/

theorem attach_any_eq {α : Type} (l : List α) (f : α → Bool) :
    l.attach.any (fun c => f c.1) = l.any f := by
  by_cases h : l.any f = true
  · obtain ⟨x, hx, hfx⟩ := List.any_eq_true.mp h
    rw [h]
    exact List.any_eq_true.mpr ⟨⟨x, hx⟩, List.mem_attach _ _, hfx⟩
  · rw [Bool.not_eq_true] at h
    rw [h]
    apply List.any_eq_false.mpr
    intro c _
    simpa using List.any_eq_false.mp h c.1 c.2

theorem attach_filterMap_eq {α β : Type} (l : List α) (f : α → Option β) :
    l.attach.filterMap (fun c => f c.1) = l.filterMap f := by
  conv_rhs => rw [← List.map_id l, ← List.attach_map_val l id, List.filterMap_map]
  rfl

theorem attach_map_eq {α β : Type} (l : List α) (f : α → β) :
    l.attach.map (fun c => f c.1) = l.map f :=
  List.attach_map_val l f

theorem charListLe_trans :
    ∀ x y z : List Char, charListLe x y = true → charListLe y z = true →
      charListLe x z = true := by
  intro x
  induction x with
  | nil => intro y z _ _; rfl
  | cons a as ih =>
    intro y z hxy hyz
    cases y with
    | nil => simp [charListLe] at hxy
    | cons b bs =>
      cases z with
      | nil => simp [charListLe] at hyz
      | cons c cs =>
        simp only [charListLe] at hxy hyz ⊢
        by_cases h1 : a.toNat < b.toNat
        · by_cases h2 : b.toNat < c.toNat
          · rw [if_pos (by omega)]
          · rw [if_neg h2] at hyz
            by_cases h3 : c.toNat < b.toNat
            · rw [if_pos h3] at hyz; exact absurd hyz (by simp)
            · rw [if_pos (by omega)]
        · rw [if_neg h1] at hxy
          by_cases h4 : b.toNat < a.toNat
          · rw [if_pos h4] at hxy; exact absurd hxy (by simp)
          · rw [if_neg h4] at hxy
            by_cases h2 : b.toNat < c.toNat
            · rw [if_pos (by omega)]
            · rw [if_neg h2] at hyz
              by_cases h3 : c.toNat < b.toNat
              · rw [if_pos h3] at hyz; exact absurd hyz (by simp)
              · rw [if_neg h3] at hyz
                rw [if_neg (by omega), if_neg (by omega)]
                exact ih bs cs hxy hyz

theorem charListLe_total : ∀ x y : List Char, (charListLe x y || charListLe y x) = true := by
  intro x
  induction x with
  | nil => intro y; simp [charListLe]
  | cons a as ih =>
    intro y
    cases y with
    | nil => simp [charListLe]
    | cons b bs =>
      simp only [charListLe]
      by_cases h1 : a.toNat < b.toNat
      · rw [if_pos h1]; simp
      · rw [if_neg h1]
        by_cases h2 : b.toNat < a.toNat
        · rw [if_pos h2]; simp [h2]
        · rw [if_neg h2, if_neg h1, if_neg h2]
          exact ih bs

theorem strle_trans : ∀ a b c : String, strle a b = true → strle b c = true → strle a c = true :=
  fun a b c => charListLe_trans a.data b.data c.data

theorem strle_total : ∀ a b : String, (strle a b || strle b a) = true :=
  fun a b => charListLe_total a.data b.data

theorem sortStrings_sorted (l : List String) :
    List.Pairwise (fun a b => strle a b = true) (sortStrings l) :=
  List.sorted_mergeSort strle_trans strle_total l

theorem sortStrings_perm (l : List String) : (sortStrings l).Perm l :=
  List.mergeSort_perm l strle

theorem lookupKV_insertKV (m : List (String × String)) (k v : String) :
    lookupKV (insertKV m k v) k = some v := by
  unfold insertKV lookupKV
  by_cases h : m.any (fun p => p.1 == k) = true
  · rw [if_pos h]
    induction m with
    | nil => simp at h
    | cons x xs ih =>
      simp only [List.map_cons]
      by_cases hx : x.1 = k
      · have hx' : (x.1 == k) = true := by simpa using hx
        rw [if_pos hx', List.find?_cons_of_pos _ (by simp)]
        rfl
      · have hx' : (x.1 == k) = false := by simpa using hx
        rw [if_neg (by simp [hx]), List.find?_cons_of_neg _ (by simp [hx])]
        apply ih
        simpa [List.any_cons, hx'] using h
  · rw [if_neg h]
    rw [Bool.not_eq_true, List.any_eq_false] at h
    induction m with
    | nil => simp
    | cons x xs ih =>
      have hx : (x.1 == k) = false := by simpa using h x (by simp)
      rw [List.cons_append, List.find?_cons_of_neg _ (by simp at hx ⊢; exact hx)]
      exact ih (fun p hp => h p (by simp [hp]))

namespace config

theorem searchImpl_mk (target r : String) (m : List (String × String)) (rs : List Route) :
    searchRoutesForReceiverImpl target (.mk r m rs)
      = (r == target || rs.any (searchRoutesForReceiverImpl target)) := by
  rw [searchRoutesForReceiverImpl, attach_any_eq]

theorem removeImpl_mk (target r : String) (m : List (String × String)) (rs : List Route) :
    removeReceiverFromRouteImpl target (.mk r m rs)
      = if r == target then none
        else some (.mk r m (rs.filterMap (removeReceiverFromRouteImpl target))) := by
  rw [removeReceiverFromRouteImpl, attach_filterMap_eq]

/-- Completeness of the route prune: a subtree surviving
removeReceiverFromRouteImpl contains no node referencing the target. -/
theorem removeImpl_no_search (target : String) (r : Route) :
    ∀ r', removeReceiverFromRouteImpl target r = some r' →
      searchRoutesForReceiverImpl target r' = false := by
  induction r using removeReceiverFromRouteImpl.induct target with
  | case1 rec m rs h =>
    intro r' hr
    rw [removeImpl_mk, if_pos h] at hr
    exact absurd hr (by simp)
  | case2 rec m rs hne ih =>
    intro r' hr
    rw [removeImpl_mk, if_neg hne, Option.some.injEq] at hr
    subst hr
    rw [searchImpl_mk, Bool.or_eq_false_iff]
    refine ⟨by simpa using hne, ?_⟩
    rw [List.any_eq_false]
    intro c hc
    obtain ⟨c0, hc0, heq⟩ := List.mem_filterMap.mp hc
    simp [ih ⟨c0, hc0⟩ c heq]

/-- getBaseRouteForTenant always yields a route carrying the tenant
base-route name. -/
theorem getBaseRouteForTenant_receiver (tenantID : String) (conf : Config) :
    (amclient.getBaseRouteForTenant tenantID conf).receiver = MakeBaseRouteName tenantID := by
  unfold amclient.getBaseRouteForTenant
  cases hfind : conf.route.routes.find? (fun r => r.receiver == MakeBaseRouteName tenantID) with
  | none => rfl
  | some r => simpa using List.find?_some hfind

end config

theorem goTrimPrefix_append (s pre : String) (h : goHasPrefix s pre = true) :
    pre ++ goTrimPrefix s pre = s := by
  unfold goTrimPrefix
  rw [if_pos h]
  unfold goHasPrefix at h
  obtain ⟨t, ht⟩ := List.isPrefixOf_iff_prefix.mp h
  cases s with
  | mk sdata =>
    cases pre with
    | mk predata =>
      simp only at ht ⊢
      show String.mk (predata ++ (List.drop predata.length sdata)) = String.mk sdata
      rw [← ht, List.drop_left]

theorem find?_of_filter_singleton {α : Type} {p : α → Bool} {l : List α} {x : α}
    (h : l.filter p = [x]) : l.find? p = some x := by
  induction l with
  | nil => simp at h
  | cons a as ih =>
    by_cases hp : p a = true
    · rw [List.filter_cons_of_pos hp] at h
      obtain ⟨h1, h2⟩ := List.cons_eq_cons.mp h
      rw [List.find?_cons_of_pos _ hp, h1]
    · rw [List.filter_cons_of_neg (by simpa using hp)] at h
      rw [List.find?_cons_of_neg _ (by simpa using hp)]
      exact ih h

namespace amclient

open config

theorem removeFirstReceiver_eq_none_iff (target : String) (l : List Receiver) :
    removeFirstReceiver target l = none ↔ ∀ r ∈ l, ¬(r.name = target) := by
  induction l with
  | nil => simp [removeFirstReceiver]
  | cons x xs ih =>
    by_cases hx : x.name = target
    · simp [removeFirstReceiver, hx]
    · rw [removeFirstReceiver, if_neg (by simpa using hx)]
      constructor
      · intro h r hr
        have hnone : removeFirstReceiver target xs = none := by
          cases hrf : removeFirstReceiver target xs with
          | none => rfl
          | some v => rw [hrf] at h; simp at h
        rcases List.mem_cons.mp hr with h1 | h1
        · rw [h1]; exact hx
        · exact (ih.mp hnone) r h1
      · intro h
        have hnone : removeFirstReceiver target xs = none :=
          ih.mpr (fun r hr => h r (List.mem_cons_of_mem _ hr))
        rw [hnone]
        rfl

end amclient

/-! ## Claim theorems -/

namespace amclient

open config

/-- C10: when reading or parsing the configuration document fails,
GetReceivers(T) returns an empty receiver list together with a nil error:
the read failure is silently discarded rather than propagated to the
caller. -/
theorem getReceivers_read_failure_silent (tenantID : String) (s : AMState)
    (h : s.readFails = true) : GetReceivers tenantID s = ([], none) := by
  unfold GetReceivers readConfigFile
  rw [if_pos h]

/-- C10 witness: a concrete failing read. -/
theorem getReceivers_read_failure_silent_witness :
    GetReceivers "t" fixtures.stReadFail = ([], none) :=
  getReceivers_read_failure_silent "t" fixtures.stReadFail rfl

/-- C9: the tenant-id slice of GetTenants is well-defined only when the
base-route substring occurs at index at least 1; on a document holding a
receiver named exactly "tenant_base_route" the substring index is 0, the
slice upper bound is negative, and the run reaches the panic branch. -/
theorem getTenants_panic_reachable :
    goIndex "tenant_base_route" TenantBaseRoutePostfix = some 0
    ∧ GetTenants fixtures.stPanic = .error "runtime error: slice bounds out of range" := by
  exact ⟨rfl, rfl⟩

/-- C1: every receiver returned by GetReceivers(T) is the un-prefixed image
of an on-disk receiver named with the tenant prefix (so only prefixed
receivers are returned, and the on-disk name is the prefix plus the visible
name), and the base-route sentinel is never among the results. -/
theorem getReceivers_tenant_namespacing (tenantID : String) (s : AMState) :
    ∀ r ∈ (GetReceivers tenantID s).1,
      (∃ rec ∈ s.disk.receivers,
          rec.name = ReceiverTenantPrefix tenantID ++ r.name)
      ∧ r.name ≠ TenantBaseRoutePostfix := by
  intro r hr
  unfold GetReceivers readConfigFile at hr
  by_cases hrf : s.readFails = true
  · rw [if_pos hrf] at hr
    simp at hr
  · rw [if_neg hrf] at hr
    simp only at hr
    obtain ⟨rec, hrecmem, hrec⟩ := List.mem_map.mp hr
    obtain ⟨hmem, hp⟩ := List.mem_filter.mp hrecmem
    rw [Bool.and_eq_true] at hp
    obtain ⟨hpre, hsent⟩ := hp
    have hname : r.name = goTrimPrefix rec.name (ReceiverTenantPrefix tenantID) := by
      rw [← hrec]; rfl
    have happ : ReceiverTenantPrefix tenantID ++ r.name = rec.name := by
      rw [hname]; exact goTrimPrefix_append _ _ hpre
    refine ⟨⟨rec, hmem, happ.symm⟩, ?_⟩
    intro hbad
    rw [hbad] at happ
    rw [Bool.not_eq_true', beq_eq_false_iff_ne] at hsent
    exact hsent happ.symm

/-- C1 witness: the prefixed receiver t_x of the fixture document comes back
as x, with its on-disk original present and distinct from the sentinel. -/
theorem getReceivers_tenant_namespacing_witness :
    (⟨"x"⟩ : Receiver) ∈ (GetReceivers "t" fixtures.stRecv).1
    ∧ ((∃ rec ∈ fixtures.stRecv.disk.receivers,
          rec.name = ReceiverTenantPrefix "t" ++ (⟨"x"⟩ : Receiver).name)
       ∧ (⟨"x"⟩ : Receiver).name ≠ TenantBaseRoutePostfix) :=
  ⟨by decide, getReceivers_tenant_namespacing "t" fixtures.stRecv ⟨"x"⟩ (by decide)⟩

end amclient

namespace alert

/-- C7: ReadRules on a missing rule file returns an empty list and no error;
with an empty name it returns all rules of the file across groups in
document order; with a non-empty name it returns exactly the single
matching rule, or an error (with an empty result) when no rule of that name
exists. -/
theorem readRules_behavior (filePrefix ruleName : String) (s : RuleState) :
    (s.fileExists = false → ReadRules filePrefix ruleName s = ([], none))
    ∧ (s.fileExists = true → s.readFails = false → ruleName = "" →
        ReadRules filePrefix ruleName s
          = ((s.disk.ruleGroups.map RuleGroup.rules).flatten, none))
    ∧ (∀ r : Rule, s.fileExists = true → s.readFails = false → ruleName ≠ "" →
        s.disk.Rules.filter (fun x => x.name == ruleName) = [r] →
        ReadRules filePrefix ruleName s = ([r], none))
    ∧ (s.fileExists = true → s.readFails = false → ruleName ≠ "" →
        (∀ x ∈ s.disk.Rules, ¬(x.name = ruleName)) →
        (ReadRules filePrefix ruleName s).2.isSome = true
        ∧ (ReadRules filePrefix ruleName s).1 = []) := by
  refine ⟨?_, ?_, ?_, ?_⟩
  · intro h
    unfold ReadRules
    rw [h]
    rfl
  · intro hex hrf hname
    unfold ReadRules readRuleFile
    rw [hex, hrf, hname]
    rfl
  · intro r hex hrf hname hfil
    have hGet : s.disk.GetRule ruleName = some r := find?_of_filter_singleton hfil
    simp [ReadRules, readRuleFile, hex, hrf, hname, hGet]
  · intro hex hrf hname hnone
    have hGet : s.disk.GetRule ruleName = none :=
      List.find?_eq_none.mpr (fun x hx => by simpa using hnone x hx)
    simp [ReadRules, readRuleFile, hex, hrf, hname, hGet]

/-- C7 witness: reading the two-group fixture file with an empty name yields
both rules in document order and no error. -/
theorem readRules_behavior_witness :
    ReadRules "t" "" fixtures.rfTwoGroups
      = ((fixtures.rfTwoGroups.disk.ruleGroups.map RuleGroup.rules).flatten, none) :=
  (readRules_behavior "t" "" fixtures.rfTwoGroups).2.1 rfl rfl rfl

end alert

namespace amclient

open config

/-- The GetTenants loop accumulates, left to right, the fragment of every
receiver whose base-route substring sits at index at least 1. -/
theorem getTenants_foldlM (recs : List Receiver) :
    ∀ acc : List String,
      (∀ rec ∈ recs, ∀ i, goIndex rec.name TenantBaseRoutePostfix = some i → 1 ≤ i) →
      List.foldlM getTenantsStep acc recs
        = Except.ok (acc ++ recs.filterMap tenantFragment) := by
  induction recs with
  | nil => intro acc _; simp; rfl
  | cons rec tl ih =>
    intro acc hpos
    rw [List.foldlM_cons]
    cases hidx : goIndex rec.name TenantBaseRoutePostfix with
    | none =>
      have hc : goContains rec.name TenantBaseRoutePostfix = false := by
        simp [goContains, hidx]
      have hstep : getTenantsStep acc rec = .ok acc := by
        simp [getTenantsStep, hc]
      rw [hstep]
      show List.foldlM getTenantsStep acc tl = _
      rw [ih acc (fun r hr => hpos r (List.mem_cons_of_mem _ hr))]
      have hfrag : tenantFragment rec = none := by simp [tenantFragment, hidx]
      rw [List.filterMap_cons, hfrag]
    | some i =>
      have h1 : 1 ≤ i := hpos rec (by simp) i hidx
      have hc : goContains rec.name TenantBaseRoutePostfix = true := by
        simp [goContains, hidx]
      have hstep : getTenantsStep acc rec
          = .ok (acc ++ [(⟨rec.name.data.take (i - 1)⟩ : String)]) := by
        simp [getTenantsStep, hc, hidx, h1]
      rw [hstep]
      show List.foldlM getTenantsStep (acc ++ [(⟨rec.name.data.take (i - 1)⟩ : String)]) tl = _
      rw [ih _ (fun r hr => hpos r (List.mem_cons_of_mem _ hr))]
      have hfrag : tenantFragment rec = some (⟨rec.name.data.take (i - 1)⟩ : String) := by
        simp [tenantFragment, hidx]
      rw [List.filterMap_cons, hfrag, List.append_assoc]
      rfl

/-- C5 as amended: when every receiver name containing the base-route
substring has it at index at least 1, GetTenants succeeds with no error and
returns, in receivers-list (document) order rather than sorted order, one
fragment per such receiver: the characters before the substring with the
separator character dropped (rec.Name[0:Index-1]). -/
theorem getTenants_document_order (s : AMState) (hr : s.readFails = false)
    (hpos : ∀ rec ∈ s.disk.receivers, ∀ i,
      goIndex rec.name TenantBaseRoutePostfix = some i → 1 ≤ i) :
    GetTenants s = .ok (s.disk.receivers.filterMap tenantFragment, none) := by
  unfold GetTenants readConfigFile
  rw [if_neg (by simp [hr])]
  simp only
  rw [getTenants_foldlM s.disk.receivers [] hpos]
  rfl

/-- C5 witness: the two-sentinel fixture, in document order. -/
theorem getTenants_document_order_witness :
    GetTenants fixtures.stTenantsBA
      = .ok (fixtures.stTenantsBA.disk.receivers.filterMap tenantFragment, none) :=
  getTenants_document_order fixtures.stTenantsBA rfl (by decide)

/-- C5 counterexample: the claim promises sorted order, but on a document
whose sentinels appear in reverse-alphabetical order GetTenants returns the
fragments unsorted. -/
theorem getTenants_unsorted_cex :
    GetTenants fixtures.stTenantsBA = .ok (["b", "a"], none)
    ∧ ¬ List.Pairwise (fun a b : String => strle a b = true) ["b", "a"] := by
  exact ⟨rfl, by decide⟩

end amclient


namespace amclient

open config

/-- C2: when the tenancy restrictor label is non-empty, every successful
ModifyTenantRoute(T, route) leaves the document with tenant T's base-route
entry in root.routes carrying match[label] = T, covering both the
newly-initialised and the overwritten slot. -/
theorem modifyTenantRoute_restrictor_match (c : ClientConfig) (tenantID : String)
    (route : Route) (s : AMState)
    (hL : c.tenancy.restrictorLabel ≠ "")
    (hok : (ModifyTenantRoute c tenantID route s).2 = none) :
    ∃ i, ∃ h : i < (ModifyTenantRoute c tenantID route s).1.disk.route.routes.length,
      (((ModifyTenantRoute c tenantID route s).1.disk.route.routes.get ⟨i, h⟩).receiver
          = MakeBaseRouteName tenantID)
      ∧ lookupKV (((ModifyTenantRoute c tenantID route s).1.disk.route.routes.get ⟨i, h⟩).matchers)
          c.tenancy.restrictorLabel = some tenantID := by
  have hrf : s.readFails = false := by
    by_contra h
    rw [Bool.not_eq_false] at h
    simp [ModifyTenantRoute, readConfigFile, h] at hok
  have hrecv : route.receiver = (getBaseRouteForTenant tenantID s.disk).receiver := by
    by_contra h
    simp [ModifyTenantRoute, readConfigFile, hrf, h] at hok
  have hbase : route.receiver = MakeBaseRouteName tenantID := by
    rw [hrecv, getBaseRouteForTenant_receiver]
  -- the secured route carries the base name and the forced matcher
  have hr2recv : (modifyRouteSecured c tenantID route).receiver = MakeBaseRouteName tenantID := by
    simp only [modifyRouteSecured, if_pos hL, Route.receiver]
    exact hbase
  have hr2match : lookupKV (modifyRouteSecured c tenantID route).matchers
      c.tenancy.restrictorLabel = some tenantID := by
    simp only [modifyRouteSecured, if_pos hL, Route.matchers]
    exact lookupKV_insertKV _ _ _
  cases hidx : s.disk.GetRouteIdx (MakeBaseRouteName tenantID) with
  | some idx =>
    by_cases hv : c.validate (overwriteTenantRoute s.disk idx (modifyRouteSecured c tenantID route)) = true
    · by_cases hwf : s.writeFails = true
      · simp [ModifyTenantRoute, readConfigFile, writeConfigFile, hrf, hrecv, hidx, hv, hwf] at hok
      · rw [Bool.not_eq_true] at hwf
        have hout : ModifyTenantRoute c tenantID route s
            = ({ s with disk := overwriteTenantRoute s.disk idx (modifyRouteSecured c tenantID route) }, none) := by
          simp [ModifyTenantRoute, readConfigFile, writeConfigFile, hrf, ← hrecv, hidx, hv, hwf]
        rw [hout]
        rw [Config.GetRouteIdx] at hidx
        obtain ⟨hlt, -, -⟩ := List.findIdx?_eq_some_iff_getElem.mp hidx
        have hlt' : idx < (overwriteTenantRoute s.disk idx (modifyRouteSecured c tenantID route)).route.routes.length := by
          simp [overwriteTenantRoute, Route.routes, List.length_set]
          exact hlt
        refine ⟨idx, hlt', ?_, ?_⟩
        · have : (overwriteTenantRoute s.disk idx (modifyRouteSecured c tenantID route)).route.routes.get ⟨idx, hlt'⟩ = modifyRouteSecured c tenantID route := by
            simp [overwriteTenantRoute, Route.routes]
          rw [this, hr2recv]
        · have : (overwriteTenantRoute s.disk idx (modifyRouteSecured c tenantID route)).route.routes.get ⟨idx, hlt'⟩ = modifyRouteSecured c tenantID route := by
            simp [overwriteTenantRoute, Route.routes]
          rw [this]
          exact hr2match
    · simp [ModifyTenantRoute, readConfigFile, hrf, ← hrecv, hidx, hv] at hok
  | none =>
    cases hini : s.disk.InitializeNetworkBaseRoute c.validate
        (modifyRouteSecured c tenantID route) c.tenancy.restrictorLabel tenantID with
    | error e =>
      simp [ModifyTenantRoute, readConfigFile, hrf, ← hrecv, hidx, hini] at hok
    | ok conf1 =>
      -- shape of the initialised document
      have hshape : conf1.route.routes
          = s.disk.route.routes ++ [Route.mk (MakeBaseRouteName tenantID)
              [(c.tenancy.restrictorLabel, tenantID)] (modifyRouteSecured c tenantID route).routes] := by
        unfold Config.InitializeNetworkBaseRoute at hini
        by_cases hgr : (s.disk.GetReceiver (MakeBaseRouteName tenantID)).isSome = true
        · rw [if_pos hgr] at hini
          simp at hini
        · rw [if_neg hgr] at hini
          dsimp only at hini
          rw [if_pos hL] at hini
          by_cases hv2 : c.validate (Config.mk s.disk.global
              (Route.mk s.disk.route.receiver s.disk.route.matchers
                (s.disk.route.routes ++
                  [Route.mk (MakeBaseRouteName tenantID) [(c.tenancy.restrictorLabel, tenantID)]
                      (modifyRouteSecured c tenantID route).routes]))
              (s.disk.receivers ++ [Receiver.mk (MakeBaseRouteName tenantID)])
              s.disk.templates) = true
          · rw [if_pos hv2] at hini
            have hco := Except.ok.inj hini
            rw [← hco]
            simp [Route.routes]
          · rw [if_neg hv2] at hini
            exact absurd hini (by simp)
      by_cases hv : c.validate conf1 = true
      · by_cases hwf : s.writeFails = true
        · simp [ModifyTenantRoute, readConfigFile, writeConfigFile, hrf, ← hrecv, hidx, hini, hv, hwf] at hok
        · rw [Bool.not_eq_true] at hwf
          have hout : ModifyTenantRoute c tenantID route s = ({ s with disk := conf1 }, none) := by
            simp [ModifyTenantRoute, readConfigFile, writeConfigFile, hrf, ← hrecv, hidx, hini, hv, hwf]
          rw [hout]
          have hlt : s.disk.route.routes.length < conf1.route.routes.length := by
            rw [hshape]
            simp
          have hget : conf1.route.routes.get ⟨s.disk.route.routes.length, hlt⟩
              = Route.mk (MakeBaseRouteName tenantID)
                  [(c.tenancy.restrictorLabel, tenantID)]
                  (modifyRouteSecured c tenantID route).routes := by
            rw [List.get_eq_getElem, List.getElem_of_eq hshape hlt]
            exact List.getElem_concat_length _ _ _ rfl _
          refine ⟨s.disk.route.routes.length, hlt, ?_, ?_⟩
          · rw [hget]
            rfl
          · rw [hget]
            simp [lookupKV, Route.matchers]
      · simp [ModifyTenantRoute, readConfigFile, hrf, ← hrecv, hidx, hini, hv] at hok



/-- C2 witness: a concrete successful route modification under the label
tenantID. -/
theorem modifyTenantRoute_restrictor_match_witness :
    ∃ i, ∃ h : i < (ModifyTenantRoute fixtures.amClientRestrict "t1" fixtures.routeBaseT1
        fixtures.stEmptyRoutes).1.disk.route.routes.length,
      (((ModifyTenantRoute fixtures.amClientRestrict "t1" fixtures.routeBaseT1
          fixtures.stEmptyRoutes).1.disk.route.routes.get ⟨i, h⟩).receiver
        = MakeBaseRouteName "t1")
      ∧ lookupKV (((ModifyTenantRoute fixtures.amClientRestrict "t1" fixtures.routeBaseT1
          fixtures.stEmptyRoutes).1.disk.route.routes.get ⟨i, h⟩).matchers)
          fixtures.amClientRestrict.tenancy.restrictorLabel = some "t1" :=
  modifyTenantRoute_restrictor_match fixtures.amClientRestrict "t1" fixtures.routeBaseT1
    fixtures.stEmptyRoutes (by decide) rfl

/-- C4: a mutation that fails validation or name-checking reports its error
before any file write, leaving the on-disk document unchanged: whenever no
write failure is possible, an error outcome of CreateReceiver,
UpdateReceiver, DeleteReceiver, ModifyTenantRoute or SetGlobalConfig implies
the stored document is the original one. -/
theorem mutations_error_before_write (c : ClientConfig) (s : AMState)
    (t n : String) (rec newRec : Receiver) (route : Route) (g : GlobalConfig)
    (hw : s.writeFails = false) :
    ((CreateReceiver c t rec s).2.isSome = true → (CreateReceiver c t rec s).1.disk = s.disk)
    ∧ ((UpdateReceiver c t n newRec s).2.isSome = true →
        (UpdateReceiver c t n newRec s).1.disk = s.disk)
    ∧ ((DeleteReceiver c t n s).2.isSome = true → (DeleteReceiver c t n s).1.disk = s.disk)
    ∧ ((ModifyTenantRoute c t route s).2.isSome = true →
        (ModifyTenantRoute c t route s).1.disk = s.disk)
    ∧ ((SetGlobalConfig c g s).2.isSome = true → (SetGlobalConfig c g s).1.disk = s.disk) := by
  have hwrite : ∀ conf, (writeConfigFile conf s).2 = none := by
    intro conf
    unfold writeConfigFile
    rw [if_neg (by simp [hw])]
  have hcr : (CreateReceiver c t rec s).1 = s ∨ (CreateReceiver c t rec s).2 = none := by
    unfold CreateReceiver
    cases hread : readConfigFile s with
    | error e => left; rfl
    | ok conf =>
      dsimp only
      split
      · right; exact hwrite _
      · left; rfl
  have hup : (UpdateReceiver c t n newRec s).1 = s ∨ (UpdateReceiver c t n newRec s).2 = none := by
    unfold UpdateReceiver
    cases hread : readConfigFile s with
    | error e => left; rfl
    | ok conf =>
      dsimp only
      split
      · left; rfl
      · split
        · right; exact hwrite _
        · left; rfl
  have hdel : (DeleteReceiver c t n s).1 = s ∨ (DeleteReceiver c t n s).2 = none := by
    unfold DeleteReceiver
    cases hread : readConfigFile s with
    | error e => left; rfl
    | ok conf =>
      dsimp only
      split
      · left; rfl
      · split
        · right; exact hwrite _
        · split
          · left; rfl
          · right; exact hwrite _
  have hmod : (ModifyTenantRoute c t route s).1 = s ∨ (ModifyTenantRoute c t route s).2 = none := by
    unfold ModifyTenantRoute
    cases hread : readConfigFile s with
    | error e => left; rfl
    | ok conf =>
      dsimp only
      split
      · left; rfl
      · split
        · split
          · left; rfl
          · split
            · right; exact hwrite _
            · left; rfl
        · split
          · right; exact hwrite _
          · left; rfl
  have hsg : (SetGlobalConfig c g s).1 = s ∨ (SetGlobalConfig c g s).2 = none := by
    unfold SetGlobalConfig
    cases hread : readConfigFile s with
    | error e => left; rfl
    | ok conf =>
      dsimp only
      split
      · right; exact hwrite _
      · left; rfl
  refine ⟨?_, ?_, ?_, ?_, ?_⟩
  · intro h
    rcases hcr with h1 | h1
    · rw [h1]
    · rw [h1] at h; simp at h
  · intro h
    rcases hup with h1 | h1
    · rw [h1]
    · rw [h1] at h; simp at h
  · intro h
    rcases hdel with h1 | h1
    · rw [h1]
    · rw [h1] at h; simp at h
  · intro h
    rcases hmod with h1 | h1
    · rw [h1]
    · rw [h1] at h; simp at h
  · intro h
    rcases hsg with h1 | h1
    · rw [h1]
    · rw [h1] at h; simp at h

/-- C4 witness: a concrete state with no write failure. -/
theorem mutations_error_before_write_witness :
    ((CreateReceiver fixtures.amClientNoDel "t" ⟨"y"⟩ fixtures.stRecv).2.isSome = true →
        (CreateReceiver fixtures.amClientNoDel "t" ⟨"y"⟩ fixtures.stRecv).1.disk
          = fixtures.stRecv.disk)
    ∧ ((UpdateReceiver fixtures.amClientNoDel "t" "x" ⟨"y"⟩ fixtures.stRecv).2.isSome = true →
        (UpdateReceiver fixtures.amClientNoDel "t" "x" ⟨"y"⟩ fixtures.stRecv).1.disk
          = fixtures.stRecv.disk)
    ∧ ((DeleteReceiver fixtures.amClientNoDel "t" "x" fixtures.stRecv).2.isSome = true →
        (DeleteReceiver fixtures.amClientNoDel "t" "x" fixtures.stRecv).1.disk
          = fixtures.stRecv.disk)
    ∧ ((ModifyTenantRoute fixtures.amClientNoDel "t" fixtures.routeBaseT1
          fixtures.stRecv).2.isSome = true →
        (ModifyTenantRoute fixtures.amClientNoDel "t" fixtures.routeBaseT1
          fixtures.stRecv).1.disk = fixtures.stRecv.disk)
    ∧ ((SetGlobalConfig fixtures.amClientNoDel emptyGlobalConfig fixtures.stRecv).2.isSome = true →
        (SetGlobalConfig fixtures.amClientNoDel emptyGlobalConfig
          fixtures.stRecv).1.disk = fixtures.stRecv.disk) :=
  mutations_error_before_write fixtures.amClientNoDel fixtures.stRecv "t" "x" ⟨"y"⟩ ⟨"y"⟩
    fixtures.routeBaseT1 emptyGlobalConfig rfl

end amclient


namespace amclient

open config

theorem removeFirstReceiver_exists (target : String) (l : List Receiver)
    (h : ∃ r ∈ l, r.name = target) :
    ∃ recs, removeFirstReceiver target l = some recs := by
  cases hrem : removeFirstReceiver target l with
  | some recs => exact ⟨recs, rfl⟩
  | none =>
    obtain ⟨r, hr, hname⟩ := h
    exact absurd hname ((removeFirstReceiver_eq_none_iff target l).mp hrem r hr)

/-- C3 as amended: DeleteReceiver(T, N) fails when no receiver named T_N
exists; with the delete-routes flag off and the prefixed receiver referenced
anywhere in the route tree the delete is refused and nothing is written;
with the flag on, every route node inside the subtrees hanging off the root
that points at the receiver is pruned — the root node's own receiver
reference is not examined — and the receiver is dropped; otherwise the
receiver is simply dropped and the file written with the route tree
untouched. -/
theorem deleteReceiver_behavior (c : ClientConfig) (t n : String) (s : AMState)
    (hr : s.readFails = false) (hw : s.writeFails = false) :
    ((∀ r ∈ s.disk.receivers, ¬(r.name = SecureReceiverName n t)) →
        DeleteReceiver c t n s = (s, some ("receiver " ++ n ++ " does not exist")))
    ∧ (c.deleteRoutes = false →
        (∃ r ∈ s.disk.receivers, r.name = SecureReceiverName n t) →
        s.disk.SearchRoutesForReceiver (SecureReceiverName n t) = true →
        (DeleteReceiver c t n s).2.isSome = true ∧ (DeleteReceiver c t n s).1 = s)
    ∧ (c.deleteRoutes = true →
        (∃ r ∈ s.disk.receivers, r.name = SecureReceiverName n t) →
        (DeleteReceiver c t n s).2 = none
        ∧ removeFirstReceiver (SecureReceiverName n t) s.disk.receivers
            = some (DeleteReceiver c t n s).1.disk.receivers
        ∧ (DeleteReceiver c t n s).1.disk.route.routes
            = s.disk.route.routes.filterMap
                (removeReceiverFromRouteImpl (SecureReceiverName n t))
        ∧ ∀ r ∈ (DeleteReceiver c t n s).1.disk.route.routes,
            searchRoutesForReceiverImpl (SecureReceiverName n t) r = false)
    ∧ (c.deleteRoutes = false →
        (∃ r ∈ s.disk.receivers, r.name = SecureReceiverName n t) →
        s.disk.SearchRoutesForReceiver (SecureReceiverName n t) = false →
        (DeleteReceiver c t n s).2 = none
        ∧ removeFirstReceiver (SecureReceiverName n t) s.disk.receivers
            = some (DeleteReceiver c t n s).1.disk.receivers
        ∧ (DeleteReceiver c t n s).1.disk.route = s.disk.route) := by
  refine ⟨?_, ?_, ?_, ?_⟩
  · intro habsent
    have hrem : removeFirstReceiver (SecureReceiverName n t) s.disk.receivers = none :=
      (removeFirstReceiver_eq_none_iff _ _).mpr habsent
    simp [DeleteReceiver, readConfigFile, hr, hrem]
  · intro hflag hex hsearch
    obtain ⟨recs, hrem⟩ := removeFirstReceiver_exists _ _ hex
    have hsearch1 : Config.SearchRoutesForReceiver
        ({ s.disk with receivers := recs }) (SecureReceiverName n t) = true := hsearch
    have hout : DeleteReceiver c t n s
        = (s, some ("reciever " ++ n ++ " referenced in route. Update routing tree and remove references before deleting this receiver")) := by
      simp [DeleteReceiver, readConfigFile, hr, hrem, hflag, hsearch1]
    rw [hout]
    exact ⟨rfl, rfl⟩
  · intro hflag hex
    obtain ⟨recs, hrem⟩ := removeFirstReceiver_exists _ _ hex
    have hout : DeleteReceiver c t n s
        = ({ s with disk := (Config.RemoveReceiverFromRoute
              ({ s.disk with receivers := recs }) (SecureReceiverName n t)) }, none) := by
      simp [DeleteReceiver, readConfigFile, writeConfigFile, hr, hw, hrem, hflag]
    rw [hout]
    refine ⟨rfl, ?_, ?_, ?_⟩
    · rw [hrem]
      rfl
    · rfl
    · intro r hrmem
      have : r ∈ s.disk.route.routes.filterMap
          (removeReceiverFromRouteImpl (SecureReceiverName n t)) := hrmem
      obtain ⟨r0, _, heq⟩ := List.mem_filterMap.mp this
      exact removeImpl_no_search _ r0 r heq
  · intro hflag hex hsearch
    obtain ⟨recs, hrem⟩ := removeFirstReceiver_exists _ _ hex
    have hsearch1 : Config.SearchRoutesForReceiver
        ({ s.disk with receivers := recs }) (SecureReceiverName n t) = false := hsearch
    have hout : DeleteReceiver c t n s
        = ({ s with disk := { s.disk with receivers := recs } }, none) := by
      simp [DeleteReceiver, readConfigFile, writeConfigFile, hr, hw, hrem, hflag, hsearch1]
    rw [hout]
    refine ⟨rfl, ?_, rfl⟩
    rw [hrem]

/-- C3 witness: deleting receiver x of tenant t with the delete-routes flag
set prunes the child route referencing it and drops the receiver. -/
theorem deleteReceiver_behavior_witness :
    (DeleteReceiver fixtures.amClientDel "t" "x" fixtures.stChildRef).2 = none
    ∧ removeFirstReceiver (SecureReceiverName "x" "t") fixtures.stChildRef.disk.receivers
        = some (DeleteReceiver fixtures.amClientDel "t" "x" fixtures.stChildRef).1.disk.receivers
    ∧ (DeleteReceiver fixtures.amClientDel "t" "x" fixtures.stChildRef).1.disk.route.routes
        = fixtures.stChildRef.disk.route.routes.filterMap
            (removeReceiverFromRouteImpl (SecureReceiverName "x" "t"))
    ∧ ∀ r ∈ (DeleteReceiver fixtures.amClientDel "t" "x" fixtures.stChildRef).1.disk.route.routes,
        searchRoutesForReceiverImpl (SecureReceiverName "x" "t") r = false :=
  (deleteReceiver_behavior fixtures.amClientDel "t" "x" fixtures.stChildRef rfl rfl).2.2.1
    rfl ⟨⟨"t_x"⟩, by decide, by decide⟩

/-- C3 counterexample: with the delete-routes flag set and the root route
itself pointing at the deleted receiver, the delete succeeds, the receiver
is gone from the list, yet the written route tree still references it: the
root node is never pruned. -/
theorem deleteReceiver_root_not_pruned_cex :
    (DeleteReceiver fixtures.amClientDel "t" "x" fixtures.stRootRef).2 = none
    ∧ (DeleteReceiver fixtures.amClientDel "t" "x" fixtures.stRootRef).1.disk.receivers = []
    ∧ (DeleteReceiver fixtures.amClientDel "t" "x"
          fixtures.stRootRef).1.disk.SearchRoutesForReceiver (SecureReceiverName "x" "t") = true := by
  exact ⟨rfl, rfl, rfl⟩

end amclient


theorem insertKV_length_of_not_mem (m : List (String × String)) (k v : String)
    (h : k ∉ m.map (·.1)) : (insertKV m k v).length = m.length + 1 := by
  have hany : m.any (fun p => p.1 == k) = false := by
    rw [List.any_eq_false]
    intro p hp
    simp only [beq_iff_eq]
    intro hEq
    exact h (hEq ▸ List.mem_map_of_mem (·.1) hp)
  unfold insertKV
  rw [if_neg (by simp [hany])]
  simp

theorem insertKV_keys_mem (m : List (String × String)) (k v : String) :
    ∀ n ∈ (insertKV m k v).map (·.1), n ∈ m.map (·.1) ∨ n = k := by
  intro n hn
  unfold insertKV at hn
  by_cases hany : m.any (fun p => p.1 == k) = true
  · rw [if_pos hany, List.map_map] at hn
    obtain ⟨p, hp, hpe⟩ := List.mem_map.mp hn
    by_cases hpk : (p.1 == k) = true
    · right
      simp only [Function.comp, hpk, if_pos] at hpe
      exact hpe.symm
    · left
      simp only [Function.comp] at hpe
      rw [if_neg hpk] at hpe
      exact hpe ▸ List.mem_map_of_mem (·.1) hp
  · rw [if_neg hany, List.map_append] at hn
    rcases List.mem_append.mp hn with h1 | h1
    · exact Or.inl h1
    · right
      simpa using h1

theorem insertKV_pairs_mem (m : List (String × String)) (k v : String) :
    ∀ p ∈ insertKV m k v, p ∈ m ∨ p = (k, v) := by
  intro p hp
  unfold insertKV at hp
  by_cases hany : m.any (fun q => q.1 == k) = true
  · rw [if_pos hany] at hp
    obtain ⟨q, hq, hqe⟩ := List.mem_map.mp hp
    by_cases hqk : (q.1 == k) = true
    · right
      rw [if_pos hqk] at hqe
      exact hqe.symm
    · left
      rw [if_neg hqk] at hqe
      exact hqe ▸ hq
  · rw [if_neg hany] at hp
    rcases List.mem_append.mp hp with h1 | h1
    · exact Or.inl h1
    · right
      simpa using h1

namespace alert

theorem bulkStep_snd (c : AlertClient) (fp : String) (f : File)
    (res : BulkUpdateResults) (r : Rule) :
    (∃ e, (bulkStep c fp (f, res) r).2
        = ⟨insertKV res.errors r.alert e, res.statuses⟩)
    ∨ (∃ v, (v = "created" ∨ v = "updated")
        ∧ (bulkStep c fp (f, res) r).2
            = ⟨res.errors, insertKV res.statuses r.alert v⟩) := by
  unfold bulkStep
  cases hsec : SecureRule c.restrictQuery c.tenancy.restrictQueries
      c.tenancy.restrictorLabel fp r with
  | error e =>
    left
    exact ⟨e, rfl⟩
  | ok secured =>
    dsimp only
    by_cases hget : (f.GetRule r.alert).isSome = true
    · rw [if_pos hget]
      cases hrep : f.ReplaceRule secured with
      | error e => left; exact ⟨e, rfl⟩
      | ok f1 => right; exact ⟨"updated", Or.inr rfl, rfl⟩
    · rw [if_neg hget]
      right
      exact ⟨"created", Or.inl rfl, rfl⟩

theorem bulk_foldl_invariant (c : AlertClient) (fp : String) :
    ∀ (rules : List Rule) (f : File) (res : BulkUpdateResults),
      (rules.map (·.alert)).Nodup →
      (∀ r ∈ rules, r.alert ∉ res.errors.map (·.1) ∧ r.alert ∉ res.statuses.map (·.1)) →
      ((rules.foldl (bulkStep c fp) (f, res)).2.errors.length
          + (rules.foldl (bulkStep c fp) (f, res)).2.statuses.length
        = res.errors.length + res.statuses.length + rules.length)
      ∧ (∀ n ∈ ((rules.foldl (bulkStep c fp) (f, res)).2.errors.map (·.1)),
          n ∈ res.errors.map (·.1) ∨ n ∈ rules.map (·.alert))
      ∧ (∀ n ∈ ((rules.foldl (bulkStep c fp) (f, res)).2.statuses.map (·.1)),
          n ∈ res.statuses.map (·.1) ∨ n ∈ rules.map (·.alert))
      ∧ (∀ p ∈ (rules.foldl (bulkStep c fp) (f, res)).2.statuses,
          p ∈ res.statuses ∨ p.2 = "created" ∨ p.2 = "updated") := by
  intro rules
  induction rules with
  | nil =>
    intro f res _ _
    refine ⟨by simp, ?_, ?_, ?_⟩
    · intro n hn; exact Or.inl hn
    · intro n hn; exact Or.inl hn
    · intro p hp; exact Or.inl hp
  | cons r tl ih =>
    intro f res hnd hdisj
    rw [List.foldl_cons]
    have hdr := hdisj r (List.mem_cons_self _ _)
    have hndtl : (tl.map (·.alert)).Nodup := by
      rw [List.map_cons, List.nodup_cons] at hnd
      exact hnd.2
    have hhead : r.alert ∉ tl.map (·.alert) := by
      rw [List.map_cons, List.nodup_cons] at hnd
      exact hnd.1
    have heta : ((bulkStep c fp (f, res) r).1, (bulkStep c fp (f, res) r).2)
        = bulkStep c fp (f, res) r := rfl
    rcases bulkStep_snd c fp f res r with ⟨e, hsnd⟩ | ⟨v, hv, hsnd⟩
    · have hdisj1 : ∀ r' ∈ tl,
          r'.alert ∉ (bulkStep c fp (f, res) r).2.errors.map (·.1)
          ∧ r'.alert ∉ (bulkStep c fp (f, res) r).2.statuses.map (·.1) := by
        intro r' hr'
        rw [hsnd]
        constructor
        · intro hmem
          rcases insertKV_keys_mem _ _ _ _ hmem with h | h
          · exact (hdisj r' (List.mem_cons_of_mem _ hr')).1 h
          · exact hhead (h ▸ List.mem_map_of_mem (·.alert) hr')
        · exact (hdisj r' (List.mem_cons_of_mem _ hr')).2
      have IH := ih (bulkStep c fp (f, res) r).1 (bulkStep c fp (f, res) r).2 hndtl hdisj1
      rw [heta] at IH
      have he1 : (insertKV res.errors r.alert e).length = res.errors.length + 1 :=
        insertKV_length_of_not_mem _ _ _ hdr.1
      refine ⟨?_, ?_, ?_, ?_⟩
      · have h1 := IH.1
        rw [hsnd] at h1
        simp only [List.length_cons] at h1 ⊢
        rw [h1, he1]
        omega
      · intro n hn
        rcases IH.2.1 n hn with h | h
        · rw [hsnd] at h
          rcases insertKV_keys_mem _ _ _ _ h with h2 | h2
          · exact Or.inl h2
          · right
            rw [List.map_cons, h2]
            exact List.mem_cons_self _ _
        · right
          rw [List.map_cons]
          exact List.mem_cons_of_mem _ h
      · intro n hn
        rcases IH.2.2.1 n hn with h | h
        · rw [hsnd] at h
          exact Or.inl h
        · right
          rw [List.map_cons]
          exact List.mem_cons_of_mem _ h
      · intro p hp
        rcases IH.2.2.2 p hp with h | h
        · rw [hsnd] at h
          exact Or.inl h
        · exact Or.inr h
    · have hdisj1 : ∀ r' ∈ tl,
          r'.alert ∉ (bulkStep c fp (f, res) r).2.errors.map (·.1)
          ∧ r'.alert ∉ (bulkStep c fp (f, res) r).2.statuses.map (·.1) := by
        intro r' hr'
        rw [hsnd]
        constructor
        · exact (hdisj r' (List.mem_cons_of_mem _ hr')).1
        · intro hmem
          rcases insertKV_keys_mem _ _ _ _ hmem with h | h
          · exact (hdisj r' (List.mem_cons_of_mem _ hr')).2 h
          · exact hhead (h ▸ List.mem_map_of_mem (·.alert) hr')
      have IH := ih (bulkStep c fp (f, res) r).1 (bulkStep c fp (f, res) r).2 hndtl hdisj1
      rw [heta] at IH
      have hs1 : (insertKV res.statuses r.alert v).length = res.statuses.length + 1 :=
        insertKV_length_of_not_mem _ _ _ hdr.2
      refine ⟨?_, ?_, ?_, ?_⟩
      · have h1 := IH.1
        rw [hsnd] at h1
        simp only [List.length_cons] at h1 ⊢
        rw [h1, hs1]
        omega
      · intro n hn
        rcases IH.2.1 n hn with h | h
        · rw [hsnd] at h
          exact Or.inl h
        · right
          rw [List.map_cons]
          exact List.mem_cons_of_mem _ h
      · intro n hn
        rcases IH.2.2.1 n hn with h | h
        · rw [hsnd] at h
          rcases insertKV_keys_mem _ _ _ _ h with h2 | h2
          · exact Or.inl h2
          · right
            rw [List.map_cons, h2]
            exact List.mem_cons_self _ _
        · right
          rw [List.map_cons]
          exact List.mem_cons_of_mem _ h
      · intro p hp
        rcases IH.2.2.2 p hp with h | h
        · rw [hsnd] at h
          rcases insertKV_pairs_mem _ _ _ _ h with h2 | h2
          · exact Or.inl h2
          · right
            rw [h2]
            rcases hv with hv | hv
            · exact Or.inl (by rw [hv])
            · exact Or.inr (by rw [hv])
        · exact Or.inr h

end alert

theorem foldl_line_join (g : String → String) :
    ∀ (names : List String) (init : String),
      names.foldl (fun acc nm => acc ++ "\t" ++ nm ++ ": " ++ g nm ++ "\n") init
        = init ++ concatStrings (names.map (fun nm => "\t" ++ nm ++ ": " ++ g nm ++ "\n")) := by
  intro names
  induction names with
  | nil =>
    intro init
    show init = init ++ ""
    rw [String.append_empty]
  | cons nm tl ih =>
    intro init
    rw [List.foldl_cons, ih, List.map_cons]
    show _ ++ concatStrings _ = _
    simp [concatStrings, List.foldr_cons, String.append_assoc]

namespace alert

/-- C6 as amended: a successful BulkUpdateRules(T, rules) over input rules
with pairwise distinct alert names returns a bundle whose error count plus
status count equals the number of input rules, every status value is
exactly "created" or "updated", and the text representation lists the
errors section before the statuses section, each section's entries in
sorted name order. -/
theorem bulkUpdateRules_results (c : AlertClient) (filePrefix : String)
    (rules : List Rule) (s : RuleState)
    (hnd : (rules.map (·.alert)).Nodup)
    (hok : (BulkUpdateRules c filePrefix rules s).2.2 = none) :
    ((BulkUpdateRules c filePrefix rules s).2.1.errors.length
        + (BulkUpdateRules c filePrefix rules s).2.1.statuses.length = rules.length)
    ∧ (∀ p ∈ (BulkUpdateRules c filePrefix rules s).2.1.statuses,
        p.2 = "created" ∨ p.2 = "updated")
    ∧ (∃ ens sns,
        List.Pairwise (fun a b => strle a b = true) ens
        ∧ List.Pairwise (fun a b => strle a b = true) sns
        ∧ ens.Perm ((BulkUpdateRules c filePrefix rules s).2.1.errors.map (·.1))
        ∧ sns.Perm ((BulkUpdateRules c filePrefix rules s).2.1.statuses.map (·.1))
        ∧ (BulkUpdateRules c filePrefix rules s).2.1.toText
            = (if (BulkUpdateRules c filePrefix rules s).2.1.errors.length > 0 then
                "Errors: \n" ++ concatStrings (ens.map (fun nm => "\t" ++ nm ++ ": "
                  ++ ((lookupKV ((BulkUpdateRules c filePrefix rules s).2.1.errors) nm).getD "")
                  ++ "\n"))
              else "")
              ++ (if (BulkUpdateRules c filePrefix rules s).2.1.statuses.length > 0 then
                "Statuses: \n" ++ concatStrings (sns.map (fun nm => "\t" ++ nm ++ ": "
                  ++ ((lookupKV ((BulkUpdateRules c filePrefix rules s).2.1.statuses) nm).getD "")
                  ++ "\n"))
              else "")) := by
  cases hread : readOrInitializeRuleFile filePrefix s with
  | error e =>
    rw [BulkUpdateRules] at hok
    rw [hread] at hok
    simp at hok
  | ok f0 =>
    have hbundle : (BulkUpdateRules c filePrefix rules s).2.1
        = (rules.foldl (bulkStep c filePrefix) (f0, NewBulkUpdateResults)).2 := by
      cases hw : s.writeFails with
      | true => simp [BulkUpdateRules, hread, writeRuleFile, hw]
      | false => simp [BulkUpdateRules, hread, writeRuleFile, hw]
    have INV := bulk_foldl_invariant c filePrefix rules f0 NewBulkUpdateResults hnd
      (by intro r _; exact ⟨by simp [NewBulkUpdateResults], by simp [NewBulkUpdateResults]⟩)
    refine ⟨?_, ?_, ?_⟩
    · rw [hbundle]
      have h1 := INV.1
      simp [NewBulkUpdateResults] at h1
      exact h1
    · intro p hp
      rw [hbundle] at hp
      rcases INV.2.2.2 p hp with h | h
      · simp [NewBulkUpdateResults] at h
      · exact h
    · refine ⟨sortStrings ((BulkUpdateRules c filePrefix rules s).2.1.errors.map (·.1)),
        sortStrings ((BulkUpdateRules c filePrefix rules s).2.1.statuses.map (·.1)),
        sortStrings_sorted _, sortStrings_sorted _, sortStrings_perm _, sortStrings_perm _, ?_⟩
      rw [BulkUpdateResults.toText]
      rw [foldl_line_join (fun nm =>
        ((lookupKV ((BulkUpdateRules c filePrefix rules s).2.1.errors) nm).getD ""))]
      rw [foldl_line_join (fun nm =>
        ((lookupKV ((BulkUpdateRules c filePrefix rules s).2.1.statuses) nm).getD ""))]
      rw [String.empty_append, String.empty_append]

/-- C6 witness: a successful bulk update of two distinctly named rules. -/
theorem bulkUpdateRules_results_witness :
    ((BulkUpdateRules fixtures.alClient "t" [fixtures.ruleA, fixtures.ruleB]
        fixtures.rfMissing).2.1.errors.length
      + (BulkUpdateRules fixtures.alClient "t" [fixtures.ruleA, fixtures.ruleB]
        fixtures.rfMissing).2.1.statuses.length
      = ([fixtures.ruleA, fixtures.ruleB] : List Rule).length)
    ∧ (∀ p ∈ (BulkUpdateRules fixtures.alClient "t" [fixtures.ruleA, fixtures.ruleB]
        fixtures.rfMissing).2.1.statuses, p.2 = "created" ∨ p.2 = "updated") :=
  ⟨(bulkUpdateRules_results fixtures.alClient "t" [fixtures.ruleA, fixtures.ruleB]
      fixtures.rfMissing (by decide) rfl).1,
   (bulkUpdateRules_results fixtures.alClient "t" [fixtures.ruleA, fixtures.ruleB]
      fixtures.rfMissing (by decide) rfl).2.1⟩

/-- C6 counterexample: two input rules sharing the alert name A collapse to
a single status entry, so the bundle sizes do not add up to the number of
input rules even though the bulk update succeeds. -/
theorem bulkUpdateRules_duplicate_names_cex :
    (BulkUpdateRules fixtures.alClient "t" [fixtures.ruleA, fixtures.ruleA2]
        fixtures.rfMissing).2.2 = none
    ∧ (BulkUpdateRules fixtures.alClient "t" [fixtures.ruleA, fixtures.ruleA2]
        fixtures.rfMissing).2.1.errors.length
      + (BulkUpdateRules fixtures.alClient "t" [fixtures.ruleA, fixtures.ruleA2]
        fixtures.rfMissing).2.1.statuses.length
      ≠ ([fixtures.ruleA, fixtures.ruleA2] : List Rule).length := by
  exact ⟨rfl, by decide⟩

end alert


namespace tmplclient

theorem writeTmpl_foldl (m : TmplMap) :
    ∀ (names : List String) (init : String),
      names.foldl (writeTmplStep m) init
      = init ++ concatStrings (names.filterMap (specTemplateLine m)) := by
  intro names
  induction names with
  | nil =>
    intro init
    show init = init ++ ""
    rw [String.append_empty]
  | cons nm tl ih =>
    intro init
    rw [List.foldl_cons, List.filterMap_cons]
    cases hl : lookupTmpl m nm with
    | none =>
      rw [show writeTmplStep m init nm = init by rw [writeTmplStep, hl]]
      rw [show specTemplateLine m nm = none by rw [specTemplateLine, hl]]
      exact ih init
    | some t =>
      by_cases hpn : (nm == t.parseName) = true
      · rw [show writeTmplStep m init nm = init by rw [writeTmplStep, hl]; exact if_pos hpn]
        rw [show specTemplateLine m nm = none by rw [specTemplateLine, hl]; exact if_pos hpn]
        exact ih init
      · rw [show writeTmplStep m init nm = init ++ defineTemplate nm t.body ++ "\n" by
          rw [writeTmplStep, hl]; exact if_neg hpn]
        rw [show specTemplateLine m nm = some (defineTemplate nm t.body ++ "\n") by
          rw [specTemplateLine, hl]; exact if_neg hpn]
        rw [ih]
        show _ = init ++ ((defineTemplate nm t.body ++ "\n") ++ concatStrings _)
        simp [String.append_assoc]

/-- The emitted text of writeTmplMapText is the concatenation, over the
template names in sorted order, of the definition blocks of the
non-implicit templates. -/
theorem writeTmplMapText_eq_spec (m : TmplMap) :
    writeTmplMapText m = specSerializeTemplates m := by
  rw [writeTmplMapText, specSerializeTemplates, writeTmpl_foldl, String.empty_append]

/-- C8 as amended: after a successful AddTemplate, EditTemplate or
DeleteTemplate, the re-serialised file is exactly the concatenation, over
template names in sorted order and omitting the implicit whole-file
template (map key equal to the tree parse-name), of
the blocks `\x7b\x7b define "<name>" \x7d\x7d<body>\x7b\x7b end \x7d\x7d` followed by a
newline — with no space between the name and the closing quote; the
emission order of every serialisation is sorted. -/
theorem templateMutation_serialization (m : TmplMap) (nm txt : String) :
    (∀ w, AddTemplate m nm txt = .ok w →
        w = specSerializeTemplates (insertTmpl m nm (parseNewTemplate txt)))
    ∧ (∀ w, EditTemplate m nm txt = .ok w →
        w = specSerializeTemplates (insertTmpl m nm (parseNewTemplate txt)))
    ∧ (∀ w, DeleteTemplate m nm = .ok w →
        w = specSerializeTemplates (removeTmpl m nm))
    ∧ List.Pairwise (fun a b => strle a b = true)
        (sortStrings ((insertTmpl m nm (parseNewTemplate txt)).map (·.1)))
    ∧ List.Pairwise (fun a b => strle a b = true)
        (sortStrings ((removeTmpl m nm).map (·.1))) := by
  refine ⟨?_, ?_, ?_, sortStrings_sorted _, sortStrings_sorted _⟩
  · intro w hw
    rw [AddTemplate] at hw
    by_cases h : (lookupTmpl m nm).isSome = true
    · rw [if_pos h] at hw
      simp at hw
    · rw [if_neg h] at hw
      have := Except.ok.inj hw
      rw [← this, writeTmplMapText_eq_spec]
  · intro w hw
    rw [EditTemplate] at hw
    by_cases h : (lookupTmpl m nm).isNone = true
    · rw [if_pos h] at hw
      simp at hw
    · rw [if_neg h] at hw
      have := Except.ok.inj hw
      rw [← this, writeTmplMapText_eq_spec]
  · intro w hw
    rw [DeleteTemplate] at hw
    by_cases h : (lookupTmpl m nm).isNone = true
    · rw [if_pos h] at hw
      simp at hw
    · rw [if_neg h] at hw
      have := Except.ok.inj hw
      rw [← this, writeTmplMapText_eq_spec]

/-- C8 witness: editing template x re-serialises the file to the canonical
sorted concatenation. -/
theorem templateMutation_serialization_witness :
    EditTemplate fixtures.tmplMapX "x" "hi"
      = .ok (specSerializeTemplates (insertTmpl fixtures.tmplMapX "x" (parseNewTemplate "hi"))) := by
  have h := (templateMutation_serialization fixtures.tmplMapX "x" "hi").2.1
    (writeTmplMapText (insertTmpl fixtures.tmplMapX "x" (parseNewTemplate "hi"))) rfl
  rw [← h]
  rfl

/-- C8 counterexample: the emitted block has no space between the template
name and the closing quote, so the claimed literal format (with the space)
differs from what a successful EditTemplate writes. -/
theorem templateDefine_format_cex :
    EditTemplate fixtures.tmplMapX "x" "hi"
      = .ok (defineTemplate "x" "hi" ++ "\n")
    ∧ defineTemplate "x" "hi" ++ "\n" ≠ specDefineTemplateClaimed "x" "hi" ++ "\n" := by
  constructor
  · show Except.ok (writeTmplMapText (insertTmpl fixtures.tmplMapX "x" (parseNewTemplate "hi"))) = _
    rw [writeTmplMapText]
    have hkeys : (insertTmpl fixtures.tmplMapX "x" (parseNewTemplate "hi")).map (·.1) = ["x"] := by
      decide
    rw [hkeys]
    rw [show sortStrings ["x"] = ["x"] from List.mergeSort_singleton "x"]
    rw [List.foldl_cons, List.foldl_nil]
    rw [show writeTmplStep (insertTmpl fixtures.tmplMapX "x" (parseNewTemplate "hi")) "" "x"
        = "" ++ defineTemplate "x" "hi" ++ "\n" from rfl]
    rw [String.empty_append]
  · decide

end tmplclient
